import Mathlib

/-!
Verification development for the simulation core of the repository
`HerbertNatanael/AlendadeObst` (a pygame vertically-scrolling shooter).

The Python sources under `src/` are shallowly embedded here:
* pixel coordinates and rectangle fields are `ℤ` (pygame `Rect` stores C ints);
* sub-pixel positions, timers and weights are `ℚ` (Python floats are modelled
  by exact rational arithmetic);
* Python's `int(...)` truncation toward zero and C's integer division used by
  pygame's `Rect` code are modelled explicitly (`pyInt`, `truncHalf`);
* randomness (`random.random()`, `random.randint`) and the per-frame keyboard
  / mouse sampling are oracle inputs supplied through an `Env` value;
* the per-sprite visual transforms (`rotozoom`, `smoothscale`, health bars)
  compute pixel surfaces externally, but they DO feed back into the
  simulation by replacing each sprite's `rect` with the transformed image's
  bounding rect recentered on the old center; enemy rectangles are carried
  in the state and quantified over, and for the player this rect
  replacement is modelled explicitly in `Player.update`, with the
  transformed image's size as an oracle input (the size itself is computed
  by the external `rotozoom` call).
-/

namespace AlendaDeObst

/-- Screen width in pixels (`SCREEN_WIDTH` in `src/src/game.py`). -/
def SCREEN_WIDTH : ℤ := 480

/-- Screen height in pixels (`SCREEN_HEIGHT` in `src/src/game.py`). -/
def SCREEN_HEIGHT : ℤ := 800

/-- Python `int(q)` on a float: truncation toward zero. -/
def pyInt (q : ℚ) : ℤ := if 0 ≤ q then ⌊q⌋ else ⌈q⌉

/-- C integer division by 2 (truncation toward zero), as performed by pygame's
`Rect` C code in `inflate` and in the `center` accessors. -/
def truncHalf (d : ℤ) : ℤ := if 0 ≤ d then d / 2 else -((-d) / 2)

/-- A pygame `Rect`: integer top-left corner plus width and height. -/
structure Rect where
  x : ℤ
  y : ℤ
  w : ℤ
  h : ℤ
deriving Repr, DecidableEq

/-- `Rect.right` (x + w). -/
def Rect.right (r : Rect) : ℤ := r.x + r.w

/-- `Rect.bottom` (y + h). -/
def Rect.bottom (r : Rect) : ℤ := r.y + r.h

/-- `Rect.centerx`: pygame computes `x + w / 2` with C division. -/
def Rect.centerx (r : Rect) : ℤ := r.x + truncHalf r.w

/-- `Rect.centery`: pygame computes `y + h / 2` with C division. -/
def Rect.centery (r : Rect) : ℤ := r.y + truncHalf r.h

/-- pygame's rectangle overlap test (`_pg_do_rects_intersect` in `rect.c`):
strict inequalities between the normalized extents of the two rectangles. -/
def Rect.colliderect (a b : Rect) : Bool :=
  decide (min a.x (a.x + a.w) < max b.x (b.x + b.w)) &&
  decide (min b.x (b.x + b.w) < max a.x (a.x + a.w)) &&
  decide (min a.y (a.y + a.h) < max b.y (b.y + b.h)) &&
  decide (min b.y (b.y + b.h) < max a.y (a.y + a.h))

/-- pygame `Rect.inflate(dx, dy)`: returns
`(x - dx / 2, y - dy / 2, w + dx, h + dy)` with C (truncating) division. -/
def Rect.inflate (r : Rect) (dx dy : ℤ) : Rect :=
  ⟨r.x - truncHalf dx, r.y - truncHalf dy, r.w + dx, r.h + dy⟩

/-- pygame `Rect.clamp(scr)` (`_pg_rect_clamp` in `rect.c`): move the rect to
lie inside `scr`; if it is at least as wide/tall as `scr`, center it. -/
def Rect.clamp (a scr : Rect) : Rect :=
  let x :=
    if scr.w ≤ a.w then scr.x + truncHalf scr.w - truncHalf a.w
    else if a.x < scr.x then scr.x
    else if scr.x + scr.w < a.x + a.w then scr.x + scr.w - a.w
    else a.x
  let y :=
    if scr.h ≤ a.h then scr.y + truncHalf scr.h - truncHalf a.h
    else if a.y < scr.y then scr.y
    else if scr.y + scr.h < a.y + a.h then scr.y + scr.h - a.h
    else a.y
  ⟨x, y, a.w, a.h⟩

/-- `image.get_rect(center=(cx, cy))`: place a `w × h` rect with the given
center (pygame assigns `x = cx - w / 2`, C division). -/
def mkRectCenter (cx cy w h : ℤ) : Rect :=
  ⟨cx - truncHalf w, cy - truncHalf h, w, h⟩

/-- `PLAYER_HITBOX_SHRINK_FACTOR` from `src/src/game.py` (0.5). -/
def PLAYER_HITBOX_SHRINK_FACTOR : ℚ := 1/2

/-- The shrunken rectangle computed inside `collide_with_shrunken_player`
(`src/src/game.py` lines 85-90), generalized over the shrink factor `f`:
`shrink_w = int(w * f)`, then `inflate (-(w - shrink_w)) (-(h - shrink_h))`. -/
def shrunkenRect (b : Rect) (f : ℚ) : Rect :=
  let shrink_w := pyInt ((b.w : ℚ) * f)
  let shrink_h := pyInt ((b.h : ℚ) * f)
  Rect.inflate b (-(b.w - shrink_w)) (-(b.h - shrink_h))

/-- `collide_with_shrunken_player(a, b)` with an explicit factor: `a.rect`
against the shrunken version of `b.rect`. -/
def collideShrunkF (a b : Rect) (f : ℚ) : Bool :=
  Rect.colliderect a (shrunkenRect b f)

/-- `collide_with_shrunken_player(a, b)` from `src/src/game.py` (lines 74-94),
at the configured factor 0.5.  Note the asymmetry: it always shrinks the
rectangle of its second argument `b`. -/
def collide_with_shrunken_player (a b : Rect) : Bool :=
  collideShrunkF a b PLAYER_HITBOX_SHRINK_FACTOR

/-- Enemy archetypes (`src/src/enemy.py` subclasses plus the boss). -/
inductive EnemyKind where
  | basic
  | zigzag
  | fast
  | shooter
  | boss
deriving Repr, DecidableEq

/-- An enemy as the simulation core sees it: archetype, hit points and
bounding rectangle (`Enemy` base class state in `src/src/enemy.py`). -/
structure Enemy where
  kind : EnemyKind
  hp : ℤ
  rect : Rect
deriving Repr, DecidableEq

/-- The four spawn weights of `Game.spawn_enemy` (`src/src/game.py` 507-516). -/
structure Weights where
  basic : ℚ
  zigzag : ℚ
  fast : ℚ
  shooter : ℚ
deriving Repr, DecidableEq

/-- Sum of the four weights. -/
def Weights.total (w : Weights) : ℚ := w.basic + w.zigzag + w.fast + w.shooter

/-- The weight computation of `Game.spawn_enemy` (`src/src/game.py` 507-516):
base weights, a time bonus capped at 0.6 growing linearly up to 120 s,
reduction of `basic` (floored at 0.25), additive redistribution, and final
renormalization. -/
def spawnWeights (t : ℚ) : Weights :=
  let bonus := min (6/10 : ℚ) (t / 120)
  let basic := max (1/4 : ℚ) ((6/10) * (1 - bonus * (6/10)))
  let zigzag := 18/100 + bonus * (25/100)
  let fast := 12/100 + bonus * (20/100)
  let shooter := 10/100 + bonus * (15/100)
  let total := basic + zigzag + fast + shooter
  ⟨basic / total, zigzag / total, fast / total, shooter / total⟩

/-- The cumulative-weight walk of `Game.spawn_enemy` (lines 518-525): draw
`r`, accumulate the weights in insertion order and pick the first kind whose
cumulative weight reaches `r`; the loop's initial value is `"basic"`. -/
def chooseKind (t r : ℚ) : EnemyKind :=
  let w := spawnWeights t
  if r ≤ w.basic then .basic
  else if r ≤ w.basic + w.zigzag then .zigzag
  else if r ≤ w.basic + w.zigzag + w.fast then .fast
  else if r ≤ w.basic + w.zigzag + w.fast + w.shooter then .shooter
  else .basic

/-- Initial hit points handed to each constructor in `Game.spawn_enemy`
(lines 529-539): 1 for basic/zigzag/fast, 3 for the shooter. -/
def spawnHp : EnemyKind → ℤ
  | .shooter => 3
  | .boss => 50
  | _ => 1

/-- `SPRITE_DRAW_SIZE` from `src/src/enemy.py` (48 × 48 enemy sprites). -/
def ENEMY_SIZE : ℤ := 48

/-- `Game.spawn_enemy` (lines 502-542): returns the enemy to add, or `none`
when the boss phase has begun (the guard on line 504).  The spawn position is
`(x, -50)` as rect center; `x` is the `random.randint(30, 450)` oracle. -/
def spawn_enemy (bossPhase : Bool) (t r : ℚ) (x : ℤ) : Option Enemy :=
  if bossPhase then none
  else
    let k := chooseKind t r
    some ⟨k, spawnHp k, mkRectCenter x (-50) ENEMY_SIZE ENEMY_SIZE⟩

/-- Top-level phase (`self.state` in `src/src/game.py`): the string-valued
field only ever holds `"menu"` or `"playing"`; victory and game over are
handled by side effects inside those phases. -/
inductive Phase where
  | menu
  | playing
deriving Repr, DecidableEq

/-- `self.difficulty_period` (12.0 s, `Game.__init__` line 197). -/
def difficulty_period : ℚ := 12

/-- `self.difficulty_reduction_factor` (0.92, `Game.__init__` line 198). -/
def difficulty_reduction_factor : ℚ := 92/100

/-- `self.spawn_interval_min` (0.25 s, `Game.__init__` line 199). -/
def spawn_interval_min : ℚ := 1/4

/-- The simulation-relevant state of the `Game` object (`src/src/game.py`).
Bullets are represented by their rectangles: their velocities only matter for
the motion step, which is modelled separately (`Bullet.update`). -/
structure GameState where
  state : Phase
  paused : Bool
  running : Bool
  score : ℤ
  lives : ℤ
  total_time : ℚ
  spawn_interval : ℚ
  spawn_timer : ℚ
  difficulty_timer : ℚ
  boss_phase_started : Bool
  boss_spawned : Bool
  player : Rect
  bullets : List Rect
  enemy_bullets : List Rect
  enemies : List Enemy
  pickups : List Rect
deriving Repr, DecidableEq

/-- Per-frame oracle inputs: the frame delta time, the `random.random()` draw
and the `random.randint` spawn abscissa used by `spawn_enemy`, and the bullets
collected from `ShooterEnemy.pop_pending_bullet` this frame. -/
structure Env where
  dt : ℚ
  r : ℚ
  spawnX : ℤ
  pending : List Rect
deriving Repr, DecidableEq

/-- Observable events of one `Game.update` call: the kinds spawned by the
scheduler, whether the boss entity was spawned, and whether the game-over
screen was shown (followed by `self.running = False`). -/
structure UpdateLog where
  spawned : List EnemyKind
  bossSpawned : Bool
  gameOverShown : Bool
deriving Repr, DecidableEq

/-- The scheduling half of `Game.update` (`src/src/game.py` lines 358-411):
collect pending shooter bullets, set `boss_phase_started` once
`total_time >= 60`, then either run the spawn timer and the difficulty timer
(boss phase not yet started) or spawn the boss when no non-boss enemy remains
and the boss was not spawned yet.  The boss constructor call is
`BossEnemy(pos=(240, -220), ..., hp=50, ...)`; the `BossEnemy` class itself is
missing from `src/` (only imported), so its rect size is modelled from the
spec with the generic enemy sprite size. -/
def schedulePart (g : GameState) (env : Env) : GameState × UpdateLog :=
  let g0 := {g with enemy_bullets := g.enemy_bullets ++ env.pending}
  let g1 :=
    if g0.boss_phase_started = false ∧ 60 ≤ g0.total_time then
      {g0 with boss_phase_started := true}
    else g0
  if g1.boss_phase_started = false then
    let st := g1.spawn_timer + env.dt
    let newE :=
      if g1.spawn_interval ≤ st then
        spawn_enemy g1.boss_phase_started g1.total_time env.r env.spawnX
      else none
    let st2 := if g1.spawn_interval ≤ st then st - g1.spawn_interval else st
    let dtr := g1.difficulty_timer + env.dt
    let dtr2 := if difficulty_period ≤ dtr then dtr - difficulty_period else dtr
    let si2 :=
      if difficulty_period ≤ dtr then
        max (g1.spawn_interval * difficulty_reduction_factor) spawn_interval_min
      else g1.spawn_interval
    ({g1 with spawn_timer := st2, enemies := g1.enemies ++ newE.toList,
              difficulty_timer := dtr2, spawn_interval := si2},
     ⟨newE.toList.map Enemy.kind, false, false⟩)
  else
    if g1.enemies.filter (fun e => e.kind ≠ EnemyKind.boss) = [] ∧
        g1.boss_spawned = false then
      let boss : Enemy :=
        ⟨EnemyKind.boss, 50, mkRectCenter (SCREEN_WIDTH / 2) (-220) ENEMY_SIZE ENEMY_SIZE⟩
      ({g1 with enemies := g1.enemies ++ [boss], boss_spawned := true},
       ⟨[], true, false⟩)
    else (g1, ⟨[], false, false⟩)

/-- The indices of the enemies whose rectangle overlaps bullet `b`: the value
list `pygame.sprite.groupcollide` associates to `b` (all of them, computed
before any damage is applied). -/
def hitIndices (enemies : List Enemy) (b : Rect) : List ℕ :=
  (List.range enemies.length).filter (fun i =>
    match enemies[i]? with
    | some e => Rect.colliderect b e.rect
    | none => false)

/-- One `enemy.take_damage(1)` call of the damage loop (`src/src/game.py`
lines 416-444) on the running accumulator `(hp list, score, pickups)`:
decrement the target's hp; when the result is `<= 0` the enemy "died"
(`take_damage` returns `True`), which drops a pickup at the boss's center for
the boss and adds 10 score otherwise.  The pickup placeholder surface is
64 × 64 (`Pickup.__init__`). -/
def takeDamageAt (enemies : List Enemy) (acc : List ℤ × ℤ × List Rect)
    (i : ℕ) : List ℤ × ℤ × List Rect :=
  match acc.1[i]?, enemies[i]? with
  | some hpi, some e =>
      let hps := acc.1.set i (hpi - 1)
      if hpi - 1 ≤ 0 then
        if e.kind = EnemyKind.boss then
          (hps, acc.2.1,
           acc.2.2 ++ [mkRectCenter e.rect.centerx e.rect.centery 64 64])
        else (hps, acc.2.1 + 10, acc.2.2)
      else (hps, acc.2.1, acc.2.2)
  | _, _ => acc

/-- The complete damage loop: for each bullet (in group order), for each of
the enemies it overlaps, apply `take_damage(1)`.  Returns the final hp list,
score and dropped pickups. -/
def damageResult (bullets : List Rect) (enemies : List Enemy) (score : ℤ) :
    List ℤ × ℤ × List Rect :=
  (bullets.map (hitIndices enemies)).foldl
    (fun acc l => l.foldl (takeDamageAt enemies) acc)
    (enemies.map Enemy.hp, score, ([] : List Rect))

/-- The enemies still in the group after the damage loop: an enemy is removed
exactly when its hp dropped to `<= 0` (its `kill()` was called), and keeps its
updated hp otherwise. -/
def survivorsOf (enemies : List Enemy) (hps : List ℤ) : List Enemy :=
  (List.range enemies.length).filterMap (fun i =>
    match enemies[i]?, hps[i]? with
    | some e, some hpi => if 0 < hpi then some ⟨e.kind, hpi, e.rect⟩ else none
    | _, _ => none)

/-- Player-bullet × enemy resolution of `Game.update` (lines 413-444):
`groupcollide(bullets, enemies, True, False)` removes every bullet that
overlaps at least one enemy, then damages every enemy in each bullet's
collision list.  Returns (surviving bullets, surviving enemies, new score,
dropped pickups). -/
def bulletsEnemiesPhase (bullets : List Rect) (enemies : List Enemy)
    (score : ℤ) : List Rect × List Enemy × ℤ × List Rect :=
  let dres := damageResult bullets enemies score
  (bullets.filter (fun b => hitIndices enemies b = []),
   survivorsOf enemies dres.1, dres.2.1, dres.2.2)

/-- `Game.update` state after the player-bullet × enemy resolution. -/
def applyBulletCombat (g : GameState) : GameState :=
  let bep := bulletsEnemiesPhase g.bullets g.enemies g.score
  {g with bullets := bep.1, enemies := bep.2.1, score := bep.2.2.1,
          pickups := g.pickups ++ bep.2.2.2}

/-- Indices of the enemies touching the player:
`spritecollide(player, enemies_group, dokill=False, collided=
collide_with_shrunken_player)` — note the collision callback receives
`(player, enemy)`, so it is the enemy's rect that gets shrunken here. -/
def touchIndices (player : Rect) (enemies : List Enemy) : List ℕ :=
  (List.range enemies.length).filter (fun i =>
    match enemies[i]? with
    | some e => collide_with_shrunken_player player e.rect
    | none => false)

/-- The enemy-contact loop (`src/src/game.py` lines 482-494): kill each
touching enemy and decrement lives, returning early (game over) as soon as
lives reaches 0.  Returns (final lives, indices actually killed, game over). -/
def touchLoop : ℤ → List ℕ → ℤ × List ℕ × Bool
  | lives, [] => (lives, [], false)
  | lives, i :: rest =>
      if lives - 1 ≤ 0 then (lives - 1, [i], true)
      else
        let res := touchLoop (lives - 1) rest
        (res.1, i :: res.2.1, res.2.2)

/-- Remove the enemies at the given indices from the group. -/
def removeIndices (enemies : List Enemy) (killed : List ℕ) : List Enemy :=
  ((List.range enemies.length).filter (fun i => ¬ i ∈ killed)).filterMap
    (fun i => enemies[i]?)

/-- Enemy-contact resolution plus the off-screen cull (`src/src/game.py`
lines 479-499).  On game over the function returns before the cull, mirroring
the early `return`. -/
def touchAndCull (g : GameState) (log : UpdateLog) : GameState × UpdateLog :=
  let hits := touchIndices g.player g.enemies
  let res := touchLoop g.lives hits
  let enemies1 := removeIndices g.enemies res.2.1
  if res.2.2 then
    ({g with lives := res.1, enemies := enemies1, running := false},
     {log with gameOverShown := true})
  else
    ({g with lives := res.1,
             enemies := enemies1.filter (fun e => e.rect.y ≤ SCREEN_HEIGHT + 120)},
     log)

/-- The collision half of `Game.update` (lines 413-499): player bullets versus
enemies, pickup collection (victory: back to the menu with every entity group
emptied), enemy bullets versus the player (all hitting bullets are consumed
but lives drops by one for the whole frame), then enemy contact and the
off-screen cull.  The `self.player = None` of `trigger_victory` has no
counterpart here (the dangling player rect is simply kept). -/
def combatPart (g : GameState) (log : UpdateLog) : GameState × UpdateLog :=
  let g1 := applyBulletCombat g
  if g1.pickups.any (fun p => collide_with_shrunken_player g1.player p) then
    ({g1 with state := Phase.menu, enemies := [], bullets := [],
              enemy_bullets := [], pickups := [],
              boss_phase_started := false, boss_spawned := false}, log)
  else
    let anyHit := g1.enemy_bullets.any
      (fun b => collide_with_shrunken_player b g1.player)
    let g2 := {g1 with enemy_bullets := (g1.enemy_bullets.filter
      (fun b => ¬ collide_with_shrunken_player b g1.player))}
    if anyHit then
      let g3 := {g2 with lives := g2.lives - 1}
      if g3.lives ≤ 0 then
        ({g3 with running := false}, {log with gameOverShown := true})
      else touchAndCull g3 log
    else touchAndCull g2 log

/-- `Game.update(dt)` (`src/src/game.py` lines 351-499).  The `all_sprites.
update(dt)` motion step is per-entity physics modelled separately
(`Bullet.update`, `Player.update`); here the entity rectangles recorded in
the state are the post-motion ones, and every theorem below quantifies over
them. -/
def update (g : GameState) (env : Env) : GameState × UpdateLog :=
  let s := schedulePart g env
  combatPart s.1 s.2

/-- One iteration of the main loop (`Game.run`, lines 274-296): while
`running`, advance `total_time` and call `update` only in the playing state
and only when not paused.  The menu start action (`handle_events` /
`start_game`), which begins a fresh session, is outside this model. -/
def frame (g : GameState) (env : Env) : GameState × UpdateLog :=
  if g.running = false then (g, ⟨[], false, false⟩)
  else if g.state = Phase.playing ∧ g.paused = false then
    update {g with total_time := g.total_time + env.dt} env
  else (g, ⟨[], false, false⟩)

/-- Iterated frames. -/
def runFrames : GameState → List Env → GameState
  | g, [] => g
  | g, e :: es => runFrames (frame g e).1 es

/-- Number of boss-spawn events over a run of frames. -/
def bossSpawnCount : GameState → List Env → ℕ
  | _, [] => 0
  | g, e :: es =>
      (if (frame g e).2.bossSpawned then 1 else 0) + bossSpawnCount (frame g e).1 es

/-- A bullet (`src/src/bullet.py`): float position (top-left), constant
velocity, and the synchronized integer rect.  The placeholder image is
8 × 16; the rect size is kept symbolic here. -/
structure BulletState where
  posx : ℚ
  posy : ℚ
  vx : ℚ
  vy : ℚ
  rect : Rect
deriving Repr, DecidableEq

/-- `Bullet.update(dt)` (`src/src/bullet.py` lines 48-60): advance the float
position by `v * dt`, truncate into the rect, and `kill()` the bullet when
the rect is entirely outside the screen (`bottom < 0` or `top > 800` or
`right < 0` or `left > 480`).  Returns the new state and the kill flag. -/
def Bullet.update (b : BulletState) (dt : ℚ) : BulletState × Bool :=
  let px := b.posx + b.vx * dt
  let py := b.posy + b.vy * dt
  let r : Rect := ⟨pyInt px, pyInt py, b.rect.w, b.rect.h⟩
  let killed :=
    decide (r.bottom < 0) || decide (SCREEN_HEIGHT < r.y) ||
    decide (r.right < 0) || decide (SCREEN_WIDTH < r.x)
  (⟨px, py, b.vx, b.vy, r⟩, killed)

/-- The player's movement state (`src/src/player.py`): float top-left
position plus the current `self.rect`.  Note that after the first frame the
rect carries the size of the previous frame's tilt-transformed image, and
the next clamp uses that size — mirrored faithfully here. -/
structure PlayerState where
  posx : ℚ
  posy : ℚ
  rect : Rect
deriving Repr, DecidableEq

/-- The movement-and-clamp step of `Player.update(dt)` (`src/src/player.py`
lines 85-122).  `mx`/`my` stand for the frame's movement delta
`dx * speed * dt` / `dy * speed * dt` (any keyboard combination, any
`dt ≥ 0`, including the diagonal `sqrt(0.5)` normalization, produces some
such pair).  The position is moved, truncated into a temporary rect of the
current rect's size, and clamped into the 480 × 800 screen rect. -/
def Player.moveClamp (p : PlayerState) (mx my : ℚ) : Rect :=
  let px := p.posx + mx
  let py := p.posy + my
  (⟨pyInt px, pyInt py, p.rect.w, p.rect.h⟩ : Rect).clamp
    ⟨0, 0, SCREEN_WIDTH, SCREEN_HEIGHT⟩

/-- `Player.update(dt)` (`src/src/player.py` lines 85-143): the
movement-and-clamp step above, followed by `_update_transformed_image`
(line 143, body 145-192), which replaces `self.rect` with the bounding rect
of the rotozoomed tilt image, recentered on the clamped rect's center, and
syncs `self.pos` to its top-left (lines 185-192).  The transformed image's
size `tw × th` comes from `pygame.transform.rotozoom`, an external library
call, and is therefore an oracle input here. -/
def Player.update (p : PlayerState) (mx my : ℚ) (tw th : ℤ) : PlayerState :=
  let c := Player.moveClamp p mx my
  let r2 := mkRectCenter c.centerx c.centery tw th
  ⟨(r2.x : ℚ), (r2.y : ℚ), r2⟩

/-- Modelled from the spec: the `BossEnemy` class is imported by
`src/src/game.py` (line 14) but its definition is absent from
`src/src/enemy.py`, so the boss firing-pattern state machine is taken from
spec §4.5: a `shoot_timer` against a 2.5 s cooldown, and a `pattern_index`
advanced modulo 4 on each expiry, emitting that pattern. -/
structure BossPattern where
  patternIndex : ℕ
  shootTimer : ℚ
deriving Repr, DecidableEq

/-- Modelled from the spec: one motion tick of the boss firing state.  On
cooldown expiry the timer keeps its remainder, `pattern_index` advances by
one modulo 4 and that pattern is emitted. -/
def bossPatternStep (s : BossPattern) (dt : ℚ) : BossPattern × Option ℕ :=
  let t := s.shootTimer + dt
  if 5/2 ≤ t then
    let i := (s.patternIndex + 1) % 4
    (⟨i, t - 5/2⟩, some i)
  else (⟨s.patternIndex, t⟩, none)

/-- Iterate `bossPatternStep` with exact-cooldown ticks, collecting the
emitted pattern indices. -/
def bossEmissions (s : BossPattern) : ℕ → List ℕ
  | 0 => []
  | n + 1 =>
      let r := bossPatternStep s (5/2)
      r.2.toList ++ bossEmissions r.1 n

/-- The hp-list effect of one `take_damage(1)` call, ignoring score/pickups
(projection of `takeDamageAt` used in the damage-count characterization). -/
def decOne (enemies : List Enemy) (hps : List ℤ) (i : ℕ) : List ℤ :=
  match hps[i]?, enemies[i]? with
  | some hpi, some _ => hps.set i (hpi - 1)
  | _, _ => hps

/-- A baseline in-session state used by the concrete scenarios below:
playing, unpaused, 3 lives, 1 s into the session, empty groups, player at
the bottom center (64 × 64 sprite). -/
def baseState : GameState where
  state := Phase.playing
  paused := false
  running := true
  score := 0
  lives := 3
  total_time := 1
  spawn_interval := 1
  spawn_timer := 0
  difficulty_timer := 0
  boss_phase_started := false
  boss_spawned := false
  player := ⟨208, 700, 64, 64⟩
  bullets := []
  enemy_bullets := []
  enemies := []
  pickups := []

/-- An environment with zero delta time and no oracle events. -/
def quietEnv : Env := ⟨0, 0, 240, []⟩

/-- Scenario for C2: one player bullet whose rectangle overlaps two basic
enemies (2 hp each) at once. -/
def c2Bullet : Rect := ⟨230, 300, 8, 16⟩

/-- First enemy overlapped by `c2Bullet`. -/
def c2EnemyA : Enemy := ⟨EnemyKind.basic, 2, ⟨220, 290, 48, 48⟩⟩

/-- Second enemy overlapped by `c2Bullet`. -/
def c2EnemyB : Enemy := ⟨EnemyKind.basic, 2, ⟨225, 295, 48, 48⟩⟩

/-- C2 scenario state. -/
def c2State : GameState :=
  {baseState with bullets := [c2Bullet], enemies := [c2EnemyA, c2EnemyB]}

/-- Scenario for C3: two enemy bullets inside the player's shrunken hitbox
in the same frame. -/
def c3BulletA : Rect := ⟨236, 720, 8, 16⟩

/-- Second enemy bullet of the C3 scenario. -/
def c3BulletB : Rect := ⟨240, 724, 8, 16⟩

/-- C3 scenario state. -/
def c3State : GameState :=
  {baseState with enemy_bullets := [c3BulletA, c3BulletB]}

/-- Scenario for C6: one life left, one enemy bullet on the player, one
far-away enemy still alive. -/
def c6Enemy : Enemy := ⟨EnemyKind.basic, 1, ⟨10, 10, 48, 48⟩⟩

/-- C6 scenario state. -/
def c6State : GameState :=
  {baseState with lives := 1, enemy_bullets := [c3BulletA], enemies := [c6Enemy]}

/-- Scenario for C7: a bullet standing 1 px below the bottom edge (its rect
top at 801), far inside any 50-120 px removal margin. -/
def c7Bullet : BulletState := ⟨236, 801, 0, 0, ⟨236, 801, 8, 16⟩⟩

/-- Scenario for C1's witness: 60 s reached, boss phase about to gate
spawning off. -/
def c1State : GameState :=
  {baseState with total_time := 60, enemies := [c2EnemyA]}

/-- Scenario for C5's witness. -/
def c5State : GameState :=
  {baseState with difficulty_timer := 119/10, spawn_timer := 1/2}

/-- Environment advancing time by 0.2 s (fires the difficulty timer from
`c5State`). -/
def c5Env : Env := ⟨1/5, 0, 240, []⟩

/-- Scenario for C8's witness: the 64 × 64 player visual rectangle. -/
def c8Rect : Rect := ⟨208, 700, 64, 64⟩

/-- A 10 × 10 rectangle: shrinking it by 0.5 moves the pygame center by one
pixel (C8 counterexample). -/
def c8OddRect : Rect := ⟨0, 0, 10, 10⟩

/-- Scenario for C10's witness. -/
def c10Player : PlayerState := ⟨208, 700, ⟨208, 700, 64, 64⟩⟩

theorem pyInt_intCast (z : ℤ) : pyInt (z : ℚ) = z := by
  unfold pyInt; split_ifs <;> simp

theorem pyInt_eq_floor {q : ℚ} (h : 0 ≤ q) : pyInt q = ⌊q⌋ := if_pos h

theorem truncHalf_nonneg {d : ℤ} (h : 0 ≤ d) : truncHalf d = d / 2 := if_pos h

theorem truncHalf_neg {s : ℤ} (h : 0 ≤ s) : truncHalf (-s) = -(s / 2) := by
  unfold truncHalf
  split_ifs with h1
  · have hs : s = 0 := le_antisymm (by omega) h
    subst hs; simp
  · simp

/-- C4: for every elapsed session time `t ≥ 0` the four computed enemy-kind
weights are non-negative and sum to exactly 1, and at `t = 0` the computation
yields exactly the base weights 0.6 / 0.18 / 0.12 / 0.10 (the time bonus is 0
there and the pre-normalization total is already 1). -/
theorem C4_spawn_weight_normalization (t : ℚ) (ht : 0 ≤ t) :
    (0 ≤ (spawnWeights t).basic ∧ 0 ≤ (spawnWeights t).zigzag ∧
     0 ≤ (spawnWeights t).fast ∧ 0 ≤ (spawnWeights t).shooter ∧
     (spawnWeights t).total = 1) ∧
    spawnWeights 0 = ⟨3/5, 9/50, 3/25, 1/10⟩ := by
  constructor
  · have hb0 : 0 ≤ min (6/10 : ℚ) (t / 120) := le_min (by norm_num) (by positivity)
    unfold spawnWeights Weights.total
    set bonus := min (6/10 : ℚ) (t / 120) with hbdef
    set basic := max (1/4 : ℚ) ((6/10) * (1 - bonus * (6/10))) with hbadef
    have hba : (1/4 : ℚ) ≤ basic := le_max_left _ _
    have hz : (0:ℚ) ≤ 18/100 + bonus * (25/100) := by nlinarith
    have hf : (0:ℚ) ≤ 12/100 + bonus * (20/100) := by nlinarith
    have hs : (0:ℚ) ≤ 10/100 + bonus * (15/100) := by nlinarith
    have htot : (0:ℚ) < basic + (18/100 + bonus * (25/100)) +
        (12/100 + bonus * (20/100)) + (10/100 + bonus * (15/100)) := by linarith
    refine ⟨by positivity, by positivity, by positivity, by positivity, ?_⟩
    field_simp
  · norm_num [spawnWeights]

/-- C7 (amended): a bullet's float position is exactly affine in `dt`
(`pos(t+dt) = pos(t) + v·dt`, additive over consecutive updates, velocity
constant), and `Bullet.update` kills the bullet exactly when its rectangle no
longer meets the closed screen rectangle — i.e. at margin 0 beyond the edges
(relative to its own extent), not at a 50-120 px margin. -/
theorem C7_bullet_motion (b : BulletState) (dt dt' : ℚ) :
    ((Bullet.update b dt).1.posx = b.posx + b.vx * dt ∧
     (Bullet.update b dt).1.posy = b.posy + b.vy * dt ∧
     (Bullet.update b dt).1.vx = b.vx ∧ (Bullet.update b dt).1.vy = b.vy) ∧
    ((Bullet.update (Bullet.update b dt).1 dt').1.posx = b.posx + b.vx * (dt + dt') ∧
     (Bullet.update (Bullet.update b dt).1 dt').1.posy = b.posy + b.vy * (dt + dt')) ∧
    ((Bullet.update b dt).2 = true ↔
      ¬((Bullet.update b dt).1.rect.x ≤ SCREEN_WIDTH ∧
        0 ≤ (Bullet.update b dt).1.rect.right ∧
        (Bullet.update b dt).1.rect.y ≤ SCREEN_HEIGHT ∧
        0 ≤ (Bullet.update b dt).1.rect.bottom)) := by
  refine ⟨⟨rfl, rfl, rfl, rfl⟩,
    ⟨by simp only [Bullet.update]; ring, by simp only [Bullet.update]; ring⟩, ?_⟩
  simp only [Bullet.update, Rect.right, Rect.bottom, Bool.or_eq_true, decide_eq_true_eq]
  omega

/-- C7 counterexample: a bullet whose rect top is 801 — a single pixel past
the bottom edge, well inside any 50-120 px margin beyond the edges (and fully
inside the screen horizontally) — is nevertheless removed by
`Bullet.update`, refuting "it is not removed while still within that
margin". -/
theorem C7_margin_counterexample :
    (Bullet.update c7Bullet 0).2 = true ∧
    (Bullet.update c7Bullet 0).1.rect.y ≤ SCREEN_HEIGHT + 50 ∧
    0 ≤ (Bullet.update c7Bullet 0).1.rect.x ∧
    (Bullet.update c7Bullet 0).1.rect.right ≤ SCREEN_WIDTH ∧
    0 ≤ (Bullet.update c7Bullet 0).1.rect.bottom := by
  norm_num [Bullet.update, c7Bullet, pyInt, Rect.right, Rect.bottom,
    SCREEN_WIDTH, SCREEN_HEIGHT]

/-- C8 counterexample: for the 10 × 10 rectangle and the configured factor
0.5, the shrunken rectangle's pygame center is (4, 4) while the visual
rectangle's center is (5, 5) — the centers are not equal, because pygame's
`inflate` uses C integer division. -/
theorem C8_center_counterexample :
    (shrunkenRect c8OddRect PLAYER_HITBOX_SHRINK_FACTOR).centerx = 4 ∧
    c8OddRect.centerx = 5 ∧
    (shrunkenRect c8OddRect PLAYER_HITBOX_SHRINK_FACTOR).centery = 4 ∧
    c8OddRect.centery = 5 := by
  norm_num [shrunkenRect, c8OddRect, PLAYER_HITBOX_SHRINK_FACTOR, pyInt,
    truncHalf, Rect.inflate, Rect.centerx, Rect.centery]

/-- C8 (amended): for `0 < f ≤ 1` and a positive-size rectangle, the
shrunken rectangle has width/height `⌊w·f⌋`/`⌊h·f⌋` (truncated, not exact
scaling), its center coincides with the visual center only up to a 1-pixel
rounding offset per axis, its area is strictly smaller for `f < 1`, and at
`f = 1` the collision predicate coincides exactly with plain rectangle
overlap. -/
theorem C8_shrink_algebra (a b : Rect) (f : ℚ) (hf0 : 0 < f) (hf1 : f ≤ 1)
    (hw : 0 < b.w) (hh : 0 < b.h) :
    ((shrunkenRect b f).w = ⌊(b.w : ℚ) * f⌋ ∧
     (shrunkenRect b f).h = ⌊(b.h : ℚ) * f⌋) ∧
    ((shrunkenRect b f).centerx ≤ b.centerx ∧
     b.centerx ≤ (shrunkenRect b f).centerx + 1 ∧
     (shrunkenRect b f).centery ≤ b.centery ∧
     b.centery ≤ (shrunkenRect b f).centery + 1) ∧
    (f < 1 → (shrunkenRect b f).w * (shrunkenRect b f).h < b.w * b.h) ∧
    collideShrunkF a b 1 = Rect.colliderect a b := by
  have hwq : (0:ℚ) < (b.w : ℚ) := by exact_mod_cast hw
  have hhq : (0:ℚ) < (b.h : ℚ) := by exact_mod_cast hh
  have hwf : (0:ℚ) ≤ (b.w : ℚ) * f := by positivity
  have hhf : (0:ℚ) ≤ (b.h : ℚ) * f := by positivity
  have hsw0 : 0 ≤ ⌊(b.w : ℚ) * f⌋ := Int.le_floor.mpr (by exact_mod_cast hwf)
  have hsh0 : 0 ≤ ⌊(b.h : ℚ) * f⌋ := Int.le_floor.mpr (by exact_mod_cast hhf)
  have hswle : ⌊(b.w : ℚ) * f⌋ ≤ b.w := by
    have : (b.w : ℚ) * f ≤ (b.w : ℚ) := mul_le_of_le_one_right (le_of_lt hwq) hf1
    calc ⌊(b.w : ℚ) * f⌋ ≤ ⌊(b.w : ℚ)⌋ := Int.floor_le_floor this
    _ = b.w := Int.floor_intCast b.w
  have hshle : ⌊(b.h : ℚ) * f⌋ ≤ b.h := by
    have : (b.h : ℚ) * f ≤ (b.h : ℚ) := mul_le_of_le_one_right (le_of_lt hhq) hf1
    calc ⌊(b.h : ℚ) * f⌋ ≤ ⌊(b.h : ℚ)⌋ := Int.floor_le_floor this
    _ = b.h := Int.floor_intCast b.h
  have hshape : shrunkenRect b f =
      ⟨b.x + (b.w - ⌊(b.w : ℚ) * f⌋) / 2, b.y + (b.h - ⌊(b.h : ℚ) * f⌋) / 2,
       ⌊(b.w : ℚ) * f⌋, ⌊(b.h : ℚ) * f⌋⟩ := by
    simp only [shrunkenRect, Rect.inflate, pyInt_eq_floor hwf, pyInt_eq_floor hhf]
    rw [truncHalf_neg (by omega), truncHalf_neg (by omega)]
    simp only [Rect.mk.injEq]
    omega
  refine ⟨⟨by rw [hshape], by rw [hshape]⟩, ?_, ?_, ?_⟩
  · rw [hshape]
    simp only [Rect.centerx, Rect.centery,
      truncHalf_nonneg hsw0, truncHalf_nonneg hsh0,
      truncHalf_nonneg (le_of_lt hw), truncHalf_nonneg (le_of_lt hh)]
    refine ⟨by omega, by omega, by omega, by omega⟩
  · intro hflt
    rw [hshape]
    have hswlt : ⌊(b.w : ℚ) * f⌋ < b.w := by
      rw [Int.floor_lt]
      exact_mod_cast mul_lt_of_lt_one_right hwq hflt
    nlinarith
  · have h1 : shrunkenRect b 1 = b := by
      unfold shrunkenRect Rect.inflate
      rw [mul_one, mul_one, pyInt_intCast, pyInt_intCast]
      simp [truncHalf]
    unfold collideShrunkF
    rw [h1]

/-- A boss tick emits pattern `p` exactly when the cooldown expires, and the
emitted pattern is always the old index advanced by one modulo 4. -/
theorem bossStep_emit_iff (s : BossPattern) (dt : ℚ) (p : ℕ) :
    (bossPatternStep s dt).2 = some p ↔
      (5/2 ≤ s.shootTimer + dt ∧ p = (s.patternIndex + 1) % 4) := by
  simp only [bossPatternStep]
  split_ifs with hc
  · simp [hc, eq_comm]
  · simp [hc]

/-- The pattern index after a boss tick: advanced modulo 4 on expiry,
unchanged otherwise. -/
theorem bossStep_index (s : BossPattern) (dt : ℚ) :
    (bossPatternStep s dt).1.patternIndex =
      if 5/2 ≤ s.shootTimer + dt then (s.patternIndex + 1) % 4
      else s.patternIndex := by
  simp only [bossPatternStep]
  split_ifs <;> rfl

/-- When the timer is non-negative, an exact-cooldown tick always fires:
the pattern index advances by one modulo 4 and is emitted, and the timer
keeps its remainder. -/
theorem bossStep_fire (s : BossPattern) (h : 0 ≤ s.shootTimer) :
    bossPatternStep s (5/2) =
      (⟨(s.patternIndex + 1) % 4, s.shootTimer⟩, some ((s.patternIndex + 1) % 4)) := by
  simp only [bossPatternStep]
  have hc : (5/2 : ℚ) ≤ s.shootTimer + 5/2 := by linarith
  simp [hc]

/-- C9 (spec-modelled, the `BossEnemy` class is missing from `src/`): every
firing event advances `pattern_index` by exactly one modulo 4 and emits that
index; two consecutive firing events never emit the same pattern; and four
consecutive cooldown expiries emit four pairwise-distinct patterns (the full
round-robin cycle). -/
theorem C9_boss_round_robin (s : BossPattern) (dt dt' : ℚ)
    (hidx : s.patternIndex < 4) (htimer : 0 ≤ s.shootTimer) :
    (∀ p, (bossPatternStep s dt).2 = some p →
        p = (s.patternIndex + 1) % 4 ∧ (bossPatternStep s dt).1.patternIndex = p) ∧
    (∀ p p', (bossPatternStep s dt).2 = some p →
        (bossPatternStep (bossPatternStep s dt).1 dt').2 = some p' →
        p' = (p + 1) % 4 ∧ p' ≠ p) ∧
    ((bossEmissions s 4).Nodup ∧ (bossEmissions s 4).length = 4) := by
  refine ⟨?_, ?_, ?_⟩
  · intro p hp
    obtain ⟨hc, hpv⟩ := (bossStep_emit_iff s dt p).mp hp
    refine ⟨hpv, ?_⟩
    rw [bossStep_index, if_pos hc, hpv]
  · intro p p' hp hp'
    obtain ⟨hc, hpv⟩ := (bossStep_emit_iff s dt p).mp hp
    obtain ⟨hc', hpv'⟩ := (bossStep_emit_iff _ dt' p').mp hp'
    rw [bossStep_index, if_pos hc, ← hpv] at hpv'
    refine ⟨hpv', ?_⟩
    subst hpv hpv'
    omega
  · obtain ⟨i, τ⟩ := s
    have htau : (0:ℚ) ≤ τ := htimer
    have hstep : ∀ j : ℕ, bossPatternStep ⟨j, τ⟩ (5/2) =
        (⟨(j + 1) % 4, τ⟩, some ((j + 1) % 4)) := by
      intro j
      exact bossStep_fire ⟨j, τ⟩ htau
    have m2 : ((i + 1) % 4 + 1) % 4 = (i + 2) % 4 := by omega
    have m3 : ((i + 2) % 4 + 1) % 4 = (i + 3) % 4 := by omega
    have m4 : ((i + 3) % 4 + 1) % 4 = (i + 4) % 4 := by omega
    have e1 : bossEmissions ⟨i, τ⟩ 4 =
        [(i + 1) % 4, (i + 2) % 4, (i + 3) % 4, (i + 4) % 4] := by
      simp [bossEmissions, hstep, m2, m3, m4]
    rw [e1]
    have hi : i < 4 := hidx
    constructor
    · interval_cases i <;> decide
    · rfl

/-- C4 witness at t = 30 s. -/
theorem C4_spawn_weight_normalization_witness :
    (0 ≤ (spawnWeights 30).basic ∧ 0 ≤ (spawnWeights 30).zigzag ∧
     0 ≤ (spawnWeights 30).fast ∧ 0 ≤ (spawnWeights 30).shooter ∧
     (spawnWeights 30).total = 1) ∧
    spawnWeights 0 = ⟨3/5, 9/50, 3/25, 1/10⟩ :=
  C4_spawn_weight_normalization 30 (by norm_num)

/-- C8 witness: at factor 1 the collision predicate on the player's
64 × 64 rectangle coincides with plain rectangle overlap. -/
theorem C8_shrink_algebra_witness :
    collideShrunkF c2Bullet c8Rect 1 = Rect.colliderect c2Bullet c8Rect :=
  (C8_shrink_algebra c2Bullet c8Rect (1/2) (by norm_num) (by norm_num)
    (by decide) (by decide)).2.2.2

/-- C9 witness: from pattern index 0, four consecutive cooldown expiries
emit four pairwise-distinct patterns. -/
theorem C9_boss_round_robin_witness :
    ((bossEmissions ⟨0, 0⟩ 4).Nodup ∧ (bossEmissions ⟨0, 0⟩ 4).length = 4) :=
  (C9_boss_round_robin ⟨0, 0⟩ 1 1 (by decide) (by norm_num)).2.2

/-- pygame `clamp` into the screen keeps a rect that fits the screen fully
inside it. -/
theorem clamp_inside {a : Rect} (hw0 : 0 < a.w) (hw : a.w ≤ SCREEN_WIDTH)
    (hh0 : 0 < a.h) (hh : a.h ≤ SCREEN_HEIGHT) :
    0 ≤ (a.clamp ⟨0, 0, SCREEN_WIDTH, SCREEN_HEIGHT⟩).x ∧
    (a.clamp ⟨0, 0, SCREEN_WIDTH, SCREEN_HEIGHT⟩).x + a.w ≤ SCREEN_WIDTH ∧
    0 ≤ (a.clamp ⟨0, 0, SCREEN_WIDTH, SCREEN_HEIGHT⟩).y ∧
    (a.clamp ⟨0, 0, SCREEN_WIDTH, SCREEN_HEIGHT⟩).y + a.h ≤ SCREEN_HEIGHT := by
  unfold SCREEN_WIDTH SCREEN_HEIGHT at *
  simp only [Rect.clamp]
  constructor
  · split_ifs with h1 h2 h3
    · have hweq : a.w = 480 := le_antisymm hw h1
      rw [hweq]
      norm_num [truncHalf]
    · omega
    · omega
    · omega
  constructor
  · split_ifs with h1 h2 h3
    · have hweq : a.w = 480 := le_antisymm hw h1
      rw [hweq]
      norm_num [truncHalf]
    · omega
    · omega
    · omega
  constructor
  · split_ifs with h1 h2 h3
    · have hheq : a.h = 800 := le_antisymm hh h1
      rw [hheq]
      norm_num [truncHalf]
    · omega
    · omega
    · omega
  · split_ifs with h1 h2 h3
    · have hheq : a.h = 800 := le_antisymm hh h1
      rw [hheq]
      norm_num [truncHalf]
    · omega
    · omega
    · omega

theorem moveClamp_inside (p : PlayerState) (mx my : ℚ)
    (hw0 : 0 < p.rect.w) (hw : p.rect.w ≤ SCREEN_WIDTH)
    (hh0 : 0 < p.rect.h) (hh : p.rect.h ≤ SCREEN_HEIGHT) :
    0 ≤ (Player.moveClamp p mx my).x ∧
    (Player.moveClamp p mx my).x + p.rect.w ≤ SCREEN_WIDTH ∧
    0 ≤ (Player.moveClamp p mx my).y ∧
    (Player.moveClamp p mx my).y + p.rect.h ≤ SCREEN_HEIGHT :=
  clamp_inside (a := ⟨pyInt (p.posx + mx), pyInt (p.posy + my), p.rect.w, p.rect.h⟩)
    hw0 hw hh0 hh

theorem moveClamp_size (p : PlayerState) (mx my : ℚ) :
    (Player.moveClamp p mx my).w = p.rect.w ∧
    (Player.moveClamp p mx my).h = p.rect.h := ⟨rfl, rfl⟩

/-- C10 counterexample: at the left screen edge, a 78 × 78 transformed
image — the bounding-box size `pygame.transform.rotozoom` actually returns
for the full-tilt rotation (≈ 14°) of the 64 × 64 canvas, SDL_gfx computing
half-width `ceil(32·cos 14° + 32·sin 14°) = 39` — is recentered on the
clamped rect's center x = 32, giving `rect.x = 32 - 39 = -7 < 0`: after
this `Player.update` call the player's rectangle protrudes past the screen
edge, refuting the claim as stated. -/
theorem C10_protrude_counterexample :
    (Player.update c10Player (-1000) 0 78 78).rect.x = -7 ∧
    (Player.update c10Player (-1000) 0 78 78).rect.x < 0 ∧
    (Player.moveClamp c10Player (-1000) 0).x = 0 ∧
    c10Player.rect.w = 64 ∧ c10Player.rect.h = 64 := by
  have hceil : ⌈(-792 : ℚ)⌉ = -792 := by
    rw [show (-792 : ℚ) = ((-792 : ℤ) : ℚ) by norm_num, Int.ceil_intCast]
  norm_num [Player.update, Player.moveClamp, pyInt, truncHalf, Rect.clamp,
    Rect.centerx, Rect.centery, mkRectCenter, c10Player,
    SCREEN_WIDTH, SCREEN_HEIGHT, hceil]

/-- C10 (amended): the movement-and-clamp step keeps the pre-transform
player rectangle entirely within the 480 × 800 screen for any movement
delta; the final rectangle installed by the tilt transform keeps exactly
that clamped center, so the player's rect CENTER always lies within the
screen; and the rectangle itself lies entirely within the screen precisely
in the case that the transformed image does not exceed the current sprite
size — when the tilt rotation grows the bounding box, the rect can protrude
at the screen edges (see the counterexample). -/
theorem C10_player_clamp_center (p : PlayerState) (mx my : ℚ) (tw th : ℤ)
    (hw0 : 0 < p.rect.w) (hw : p.rect.w ≤ SCREEN_WIDTH)
    (hh0 : 0 < p.rect.h) (hh : p.rect.h ≤ SCREEN_HEIGHT)
    (htw : 0 ≤ tw) (hth : 0 ≤ th) :
    (0 ≤ (Player.moveClamp p mx my).x ∧
     (Player.moveClamp p mx my).right ≤ SCREEN_WIDTH ∧
     0 ≤ (Player.moveClamp p mx my).y ∧
     (Player.moveClamp p mx my).bottom ≤ SCREEN_HEIGHT) ∧
    ((Player.update p mx my tw th).rect.centerx = (Player.moveClamp p mx my).centerx ∧
     (Player.update p mx my tw th).rect.centery = (Player.moveClamp p mx my).centery) ∧
    (0 ≤ (Player.update p mx my tw th).rect.centerx ∧
     (Player.update p mx my tw th).rect.centerx ≤ SCREEN_WIDTH ∧
     0 ≤ (Player.update p mx my tw th).rect.centery ∧
     (Player.update p mx my tw th).rect.centery ≤ SCREEN_HEIGHT) ∧
    (tw ≤ p.rect.w → th ≤ p.rect.h →
      0 ≤ (Player.update p mx my tw th).rect.x ∧
      (Player.update p mx my tw th).rect.right ≤ SCREEN_WIDTH ∧
      0 ≤ (Player.update p mx my tw th).rect.y ∧
      (Player.update p mx my tw th).rect.bottom ≤ SCREEN_HEIGHT) := by
  have hc := moveClamp_inside p mx my hw0 hw hh0 hh
  have hsz := moveClamp_size p mx my
  have hwd : truncHalf p.rect.w = p.rect.w / 2 := truncHalf_nonneg (le_of_lt hw0)
  have hhd : truncHalf p.rect.h = p.rect.h / 2 := truncHalf_nonneg (le_of_lt hh0)
  have htwd : truncHalf tw = tw / 2 := truncHalf_nonneg htw
  have hthd : truncHalf th = th / 2 := truncHalf_nonneg hth
  have hcenter :
      (Player.update p mx my tw th).rect.centerx = (Player.moveClamp p mx my).centerx ∧
      (Player.update p mx my tw th).rect.centery = (Player.moveClamp p mx my).centery := by
    simp only [Player.update, mkRectCenter, Rect.centerx, Rect.centery]
    omega
  refine ⟨⟨hc.1, ?_, hc.2.2.1, ?_⟩, hcenter, ?_, ?_⟩
  · rw [Rect.right, hsz.1]
    exact hc.2.1
  · rw [Rect.bottom, hsz.2]
    exact hc.2.2.2
  · rw [hcenter.1, hcenter.2]
    simp only [Rect.centerx, Rect.centery, hsz.1, hsz.2, hwd, hhd]
    unfold SCREEN_WIDTH SCREEN_HEIGHT at *
    omega
  · intro h1 h2
    have hx : (Player.update p mx my tw th).rect.x =
        (Player.moveClamp p mx my).centerx - tw / 2 := by
      simp only [Player.update, mkRectCenter, htwd]
    have hy : (Player.update p mx my tw th).rect.y =
        (Player.moveClamp p mx my).centery - th / 2 := by
      simp only [Player.update, mkRectCenter, hthd]
    have hwidth : (Player.update p mx my tw th).rect.w = tw := rfl
    have hheight : (Player.update p mx my tw th).rect.h = th := rfl
    simp only [Rect.right, Rect.bottom, hx, hy, hwidth, hheight,
      Rect.centerx, Rect.centery, hsz.1, hsz.2, hwd, hhd]
    unfold SCREEN_WIDTH SCREEN_HEIGHT at *
    omega

/-- C10 witness: with a transformed image no larger than the 64 × 64 base
sprite, a large diagonal move stays fully inside the screen, and the rect
center is the clamped center. -/
theorem C10_player_clamp_center_witness :
    (0 ≤ (Player.update c10Player 1000 (-1000) 64 64).rect.x ∧
     (Player.update c10Player 1000 (-1000) 64 64).rect.right ≤ SCREEN_WIDTH ∧
     0 ≤ (Player.update c10Player 1000 (-1000) 64 64).rect.y ∧
     (Player.update c10Player 1000 (-1000) 64 64).rect.bottom ≤ SCREEN_HEIGHT) :=
  (C10_player_clamp_center c10Player 1000 (-1000) 64 64
    (by decide) (by decide) (by decide) (by decide) (by decide) (by decide)).2.2.2
    (by decide) (by decide)

theorem combatPart_spawned_log (g : GameState) (log : UpdateLog) :
    (combatPart g log).2.spawned = log.spawned := by
  simp only [combatPart, touchAndCull, applyBulletCombat]
  split_ifs <;> rfl

theorem combatPart_bossSpawned_log (g : GameState) (log : UpdateLog) :
    (combatPart g log).2.bossSpawned = log.bossSpawned := by
  simp only [combatPart, touchAndCull, applyBulletCombat]
  split_ifs <;> rfl

theorem combatPart_spawn_interval (g : GameState) (log : UpdateLog) :
    (combatPart g log).1.spawn_interval = g.spawn_interval := by
  simp only [combatPart, touchAndCull, applyBulletCombat]
  split_ifs <;> rfl

theorem combatPart_boss (g : GameState) (log : UpdateLog) :
    ((combatPart g log).1.state = g.state ∧
     (combatPart g log).1.boss_spawned = g.boss_spawned) ∨
    (combatPart g log).1.state = Phase.menu := by
  simp only [combatPart, touchAndCull, applyBulletCombat]
  split_ifs <;> simp

theorem schedulePart_boss_true (g : GameState) (env : Env)
    (h : g.boss_spawned = true) :
    (schedulePart g env).1.boss_spawned = true := by
  simp only [schedulePart]
  split_ifs <;> simp_all

theorem schedulePart_emit_flag (g : GameState) (env : Env)
    (h : (schedulePart g env).2.bossSpawned = true) :
    (schedulePart g env).1.boss_spawned = true := by
  simp only [schedulePart] at h ⊢
  split_ifs at h ⊢ <;> simp_all

theorem schedulePart_interval (g : GameState) (env : Env)
    (h : spawn_interval_min ≤ g.spawn_interval) :
    spawn_interval_min ≤ (schedulePart g env).1.spawn_interval ∧
    (schedulePart g env).1.spawn_interval ≤ g.spawn_interval := by
  have h4 : (0:ℚ) < 1/4 := by norm_num
  unfold spawn_interval_min at *
  simp only [schedulePart, difficulty_reduction_factor]
  split_ifs <;>
    first
      | exact ⟨h, le_rfl⟩
      | exact ⟨le_max_right _ _, max_le (by nlinarith) h⟩

theorem update_interval (g : GameState) (env : Env)
    (h : spawn_interval_min ≤ g.spawn_interval) :
    spawn_interval_min ≤ (update g env).1.spawn_interval ∧
    (update g env).1.spawn_interval ≤ g.spawn_interval := by
  unfold update
  rw [combatPart_spawn_interval]
  exact schedulePart_interval g env h

theorem frame_interval (g : GameState) (env : Env)
    (h : spawn_interval_min ≤ g.spawn_interval) :
    spawn_interval_min ≤ (frame g env).1.spawn_interval ∧
    (frame g env).1.spawn_interval ≤ g.spawn_interval := by
  unfold frame
  split_ifs with h1 h2
  · exact ⟨h, le_rfl⟩
  · exact update_interval _ env h
  · exact ⟨h, le_rfl⟩

theorem runFrames_interval (envs : List Env) : ∀ g : GameState,
    spawn_interval_min ≤ g.spawn_interval →
    spawn_interval_min ≤ (runFrames g envs).spawn_interval ∧
    (runFrames g envs).spawn_interval ≤ g.spawn_interval := by
  induction envs with
  | nil => exact fun g h => ⟨h, le_rfl⟩
  | cons e es ih =>
      intro g h
      have h1 := frame_interval g e h
      have h2 := ih (frame g e).1 h1.1
      exact ⟨h2.1, le_trans h2.2 h1.2⟩

/-- C5: over any sequence of main-loop frames, `spawn_interval` is
monotonically non-increasing and never drops below `spawn_interval_min`
(0.25 s); and whenever the difficulty timer fires in the playing phase
before 60 s, the interval is exactly multiplied by 0.92 and floored at
`spawn_interval_min`. -/
theorem C5_difficulty_monotone (g : GameState) (env : Env) (envs : List Env)
    (h : spawn_interval_min ≤ g.spawn_interval) :
    ((frame g env).1.spawn_interval ≤ g.spawn_interval ∧
     spawn_interval_min ≤ (frame g env).1.spawn_interval) ∧
    ((runFrames g envs).spawn_interval ≤ g.spawn_interval ∧
     spawn_interval_min ≤ (runFrames g envs).spawn_interval) ∧
    (g.boss_phase_started = false → ¬ 60 ≤ g.total_time →
     difficulty_period ≤ g.difficulty_timer + env.dt →
     (schedulePart g env).1.spawn_interval =
       max (g.spawn_interval * difficulty_reduction_factor) spawn_interval_min) := by
  refine ⟨?_, ?_, ?_⟩
  · have := frame_interval g env h
    exact ⟨this.2, this.1⟩
  · have := runFrames_interval envs g h
    exact ⟨this.2, this.1⟩
  · intro hbp ht hdt
    simp [schedulePart, hbp, ht, hdt]

/-- C5 witness: from the baseline session state with the difficulty timer at
11.9 s and a 0.2 s frame, the interval tightens to `max(1·0.92, 0.25)`. -/
theorem C5_difficulty_monotone_witness :
    (schedulePart c5State c5Env).1.spawn_interval =
      max (c5State.spawn_interval * difficulty_reduction_factor) spawn_interval_min :=
  (C5_difficulty_monotone c5State c5Env [] (by norm_num [c5State, baseState, spawn_interval_min])).2.2
    (by norm_num [c5State, baseState])
    (by norm_num [c5State, baseState])
    (by norm_num [c5State, c5Env, baseState, difficulty_period])

theorem update_no_spawn_after_60 (g : GameState) (env : Env)
    (h : 60 ≤ g.total_time) :
    (update g env).2.spawned = [] := by
  unfold update
  rw [combatPart_spawned_log]
  cases hb : g.boss_phase_started with
  | true =>
      simp only [schedulePart, hb]
      split_ifs <;> simp_all
  | false =>
      simp only [schedulePart, hb]
      split_ifs <;> simp_all

theorem update_bossSpawned_iff (g : GameState) (env : Env) :
    (update g env).2.bossSpawned = true ↔
      ((g.boss_phase_started = true ∨ 60 ≤ g.total_time) ∧
       g.enemies.filter (fun e => e.kind ≠ EnemyKind.boss) = [] ∧
       g.boss_spawned = false) := by
  unfold update
  rw [combatPart_bossSpawned_log]
  by_cases hbp : g.boss_phase_started = true
  · by_cases hne : ∀ a ∈ g.enemies, a.kind = EnemyKind.boss
    · by_cases hbs : g.boss_spawned = false
      · simp [schedulePart, hbp, hbs, if_pos hne]
        exact hne
      · simp [schedulePart, hbp, hne, hbs]
    · simp [schedulePart, hbp, hne]
  · have hbf : g.boss_phase_started = false := by
      cases h : g.boss_phase_started
      · rfl
      · exact absurd h hbp
    by_cases ht : 60 ≤ g.total_time
    · by_cases hne : ∀ a ∈ g.enemies, a.kind = EnemyKind.boss
      · by_cases hbs : g.boss_spawned = false
        · simp [schedulePart, hbf, ht, hbs, if_pos hne]
          exact hne
        · simp [schedulePart, hbf, ht, hne, hbs]
      · simp [schedulePart, hbf, ht, hne]
    · simp [schedulePart, hbf, ht]

theorem frame_not_playing (g : GameState) (env : Env)
    (h : g.state ≠ Phase.playing) :
    (frame g env).2.spawned = [] ∧ (frame g env).2.bossSpawned = false := by
  unfold frame
  split_ifs with h1 h2
  · exact ⟨rfl, rfl⟩
  · exact absurd h2.1 h
  · exact ⟨rfl, rfl⟩

theorem frame_Q_preserved (g : GameState) (env : Env)
    (hq : g.boss_spawned = true ∨ g.state = Phase.menu ∨ g.paused = true ∨
          g.running = false) :
    (frame g env).2.bossSpawned = false ∧
    ((frame g env).1.boss_spawned = true ∨ (frame g env).1.state = Phase.menu ∨
     (frame g env).1.paused = true ∨ (frame g env).1.running = false) := by
  unfold frame
  split_ifs with h1 h2
  · exact ⟨rfl, hq⟩
  · have hbs : g.boss_spawned = true := by
      rcases hq with hq | hq | hq | hq
      · exact hq
      · rw [hq] at h2; exact absurd h2.1 (by simp)
      · rw [hq] at h2; exact absurd h2.2 (by simp)
      · exact absurd hq h1
    set gt := {g with total_time := g.total_time + env.dt} with hgt
    have hgtb : gt.boss_spawned = true := hbs
    constructor
    · cases hbb : (update gt env).2.bossSpawned
      · rfl
      · have := (update_bossSpawned_iff gt env).mp hbb
        rw [hgtb] at this
        simp at this
    · have hsch : (schedulePart gt env).1.boss_spawned = true :=
        schedulePart_boss_true gt env hgtb
      rcases combatPart_boss (schedulePart gt env).1 (schedulePart gt env).2 with
        ⟨hst, hbs2⟩ | hmenu
      · left
        unfold update
        rw [hbs2]
        exact hsch
      · right; left
        unfold update
        exact hmenu
  · exact ⟨rfl, hq⟩

theorem frame_emit_establishes (g : GameState) (env : Env)
    (h : (frame g env).2.bossSpawned = true) :
    ((frame g env).1.boss_spawned = true ∨ (frame g env).1.state = Phase.menu ∨
     (frame g env).1.paused = true ∨ (frame g env).1.running = false) := by
  unfold frame at h ⊢
  by_cases h1 : g.running = false
  · rw [if_pos h1] at h
    exact Bool.noConfusion h
  by_cases h2 : g.state = Phase.playing ∧ g.paused = false
  rotate_left
  · rw [if_neg h1, if_neg h2] at h
    exact Bool.noConfusion h
  rw [if_neg h1, if_pos h2] at h ⊢
  · set gt := {g with total_time := g.total_time + env.dt} with hgt
    have hlog : (schedulePart gt env).2.bossSpawned = true := by
      have := combatPart_bossSpawned_log (schedulePart gt env).1 (schedulePart gt env).2
      unfold update at h
      rw [this] at h
      exact h
    have hsch : (schedulePart gt env).1.boss_spawned = true :=
      schedulePart_emit_flag gt env hlog
    rcases combatPart_boss (schedulePart gt env).1 (schedulePart gt env).2 with
      ⟨hst, hbs2⟩ | hmenu
    · left
      unfold update
      rw [hbs2]
      exact hsch
    · right; left
      unfold update
      exact hmenu

theorem bossCount_zero (envs : List Env) : ∀ g : GameState,
    (g.boss_spawned = true ∨ g.state = Phase.menu ∨ g.paused = true ∨
     g.running = false) →
    bossSpawnCount g envs = 0 := by
  induction envs with
  | nil => intro g _; rfl
  | cons e es ih =>
      intro g hq
      have h1 := frame_Q_preserved g e hq
      unfold bossSpawnCount
      rw [h1.1, ih (frame g e).1 h1.2]
      simp

theorem bossCount_le_one (envs : List Env) : ∀ g : GameState,
    bossSpawnCount g envs ≤ 1 := by
  induction envs with
  | nil => intro g; exact Nat.zero_le 1
  | cons e es ih =>
      intro g
      unfold bossSpawnCount
      cases hb : (frame g e).2.bossSpawned
      · simpa using ih (frame g e).1
      · have hq := frame_emit_establishes g e hb
        rw [bossCount_zero es (frame g e).1 hq]
        simp

/-- C1: after elapsed session time reaches 60 s the spawn scheduler emits no
enemy on any frame; the boss-spawn event of `Game.update` fires exactly when
the boss phase is (or just became) active, no non-boss enemy remains alive
and the boss was not already spawned — and over any run of frames it fires
at most once; and no spawn event at all occurs outside the Playing phase. -/
theorem C1_phase_gating (g : GameState) (env : Env) (envs : List Env) :
    (60 ≤ g.total_time → (update g env).2.spawned = []) ∧
    ((update g env).2.bossSpawned = true ↔
      ((g.boss_phase_started = true ∨ 60 ≤ g.total_time) ∧
       g.enemies.filter (fun e => e.kind ≠ EnemyKind.boss) = [] ∧
       g.boss_spawned = false)) ∧
    (g.state ≠ Phase.playing →
      (frame g env).2.spawned = [] ∧ (frame g env).2.bossSpawned = false) ∧
    bossSpawnCount g envs ≤ 1 :=
  ⟨fun h => update_no_spawn_after_60 g env h,
   update_bossSpawned_iff g env,
   fun h => frame_not_playing g env h,
   bossCount_le_one envs g⟩

/-- C1 witness: at 60 s with a basic enemy still alive, the scheduler emits
no enemy and the boss is not yet spawned. -/
theorem C1_phase_gating_witness :
    (update c1State quietEnv).2.spawned = [] ∧
    ¬ (update c1State quietEnv).2.bossSpawned = true :=
  ⟨(C1_phase_gating c1State quietEnv []).1 (by norm_num [c1State, baseState]),
   fun h => by
    have h2 := ((C1_phase_gating c1State quietEnv []).2.1.mp h).2.1
    exact absurd h2 (by decide)⟩

theorem schedulePart_state (g : GameState) (env : Env) :
    (schedulePart g env).1.state = g.state := by
  simp only [schedulePart]
  split_ifs <;> rfl

theorem schedulePart_running (g : GameState) (env : Env) :
    (schedulePart g env).1.running = g.running := by
  simp only [schedulePart]
  split_ifs <;> rfl

theorem schedulePart_lives (g : GameState) (env : Env) :
    (schedulePart g env).1.lives = g.lives := by
  simp only [schedulePart]
  split_ifs <;> rfl

theorem schedulePart_gameOver_log (g : GameState) (env : Env) :
    (schedulePart g env).2.gameOverShown = false := by
  simp only [schedulePart]
  split_ifs <;> rfl

theorem touchLoop_go_le (hits : List ℕ) : ∀ lives : ℤ,
    (touchLoop lives hits).2.2 = true → (touchLoop lives hits).1 ≤ 0 := by
  induction hits with
  | nil => intro lives h; exact Bool.noConfusion h
  | cons i rest ih =>
      intro lives h
      simp only [touchLoop] at h ⊢
      split_ifs at h ⊢ with hc
      · exact hc
      · exact ih (lives - 1) h

theorem touchAndCull_gameOver (g : GameState) (log : UpdateLog)
    (hlog : log.gameOverShown = false) :
    ((touchAndCull g log).2.gameOverShown = true →
      (touchAndCull g log).1.running = false ∧
      (touchAndCull g log).1.state = g.state ∧
      (touchAndCull g log).1.lives ≤ 0) ∧
    ((touchAndCull g log).2.gameOverShown = false →
      (touchAndCull g log).1.running = g.running) := by
  simp only [touchAndCull]
  split_ifs with hgo
  · refine ⟨fun _ => ⟨rfl, rfl, touchLoop_go_le _ _ hgo⟩, fun h => ?_⟩
    exact h.elim
  · refine ⟨fun h => ?_, fun _ => rfl⟩
    exact absurd (show log.gameOverShown = true from h) (by simp [hlog])

theorem combatPart_gameOver (g : GameState) (log : UpdateLog)
    (hlog : log.gameOverShown = false) :
    ((combatPart g log).2.gameOverShown = true →
      (combatPart g log).1.running = false ∧
      (combatPart g log).1.state = g.state ∧
      (combatPart g log).1.lives ≤ 0) ∧
    ((combatPart g log).2.gameOverShown = false →
      (combatPart g log).1.running = g.running) := by
  simp only [combatPart]
  split_ifs with hv hhit hdead
  · refine ⟨fun h => ?_, fun _ => rfl⟩
    exact absurd (show log.gameOverShown = true from h) (by simp [hlog])
  · exact ⟨fun _ => ⟨rfl, rfl, hdead⟩,
      fun h => h.elim⟩
  · exact touchAndCull_gameOver _ log hlog
  · exact touchAndCull_gameOver _ log hlog

/-- C6 (amended): whenever `Game.update` takes the game-over path (lives
reached 0), the GAME OVER screen is shown (with a fixed 1.5 s dwell realized
by `pygame.time.delay`), the main loop flag `running` becomes `False` — so
the program terminates — and the phase is NOT reset to the menu; when the
game-over path is not taken, `running` is untouched. -/
theorem C6_game_over_terminates (g : GameState) (env : Env) :
    ((update g env).2.gameOverShown = true →
      (update g env).1.running = false ∧ (update g env).1.state = g.state ∧
      (update g env).1.lives ≤ 0) ∧
    ((update g env).2.gameOverShown = false →
      (update g env).1.running = g.running) := by
  unfold update
  have hlog := schedulePart_gameOver_log g env
  have h := combatPart_gameOver (schedulePart g env).1 (schedulePart g env).2 hlog
  constructor
  · intro h'
    obtain ⟨hr, hst, hl⟩ := h.1 h'
    exact ⟨hr, hst.trans (schedulePart_state g env), hl⟩
  · intro h'
    exact (h.2 h').trans (schedulePart_running g env)

theorem shrunkPlayer_eval :
    shrunkenRect (⟨208, 700, 64, 64⟩ : Rect) PLAYER_HITBOX_SHRINK_FACTOR =
      ⟨224, 716, 32, 32⟩ := by
  norm_num [shrunkenRect, PLAYER_HITBOX_SHRINK_FACTOR, pyInt, truncHalf, Rect.inflate]

theorem colA_eval :
    collide_with_shrunken_player c3BulletA (⟨208, 700, 64, 64⟩ : Rect) = true := by
  unfold collide_with_shrunken_player collideShrunkF
  rw [shrunkPlayer_eval]
  decide

theorem colB_eval :
    collide_with_shrunken_player c3BulletB (⟨208, 700, 64, 64⟩ : Rect) = true := by
  unfold collide_with_shrunken_player collideShrunkF
  rw [shrunkPlayer_eval]
  decide

/-- C6 counterexample: with one life left and one enemy bullet on the
player, the frame shows GAME OVER and stops the main loop (`running` becomes
false, so `Game.run` exits and the program terminates); the phase stays
`playing` (no return to the menu) and the enemy collection is NOT cleared —
refuting "returns to the Menu phase, with all entity collections cleared;
the program never terminates". -/
theorem C6_counterexample :
    (frame c6State quietEnv).2.gameOverShown = true ∧
    (frame c6State quietEnv).1.running = false ∧
    (frame c6State quietEnv).1.state = Phase.playing ∧
    (frame c6State quietEnv).1.enemies ≠ [] ∧
    c6State.running = true ∧ c6State.lives = 1 := by
  norm_num [frame, update, schedulePart, combatPart, applyBulletCombat,
    bulletsEnemiesPhase, damageResult, survivorsOf, hitIndices, takeDamageAt,
    touchAndCull, touchIndices, touchLoop, removeIndices, colA_eval,
    c6State, baseState, quietEnv, c6Enemy, spawn_enemy, difficulty_period]
  simp

/-- C6 witness for the amended theorem, at the C6 scenario state. -/
theorem C6_game_over_terminates_witness :
    (update c6State quietEnv).1.running = false ∧
    (update c6State quietEnv).1.state = c6State.state ∧
    (update c6State quietEnv).1.lives ≤ 0 :=
  (C6_game_over_terminates c6State quietEnv).1
    (by norm_num [update, schedulePart, combatPart, applyBulletCombat,
      bulletsEnemiesPhase, damageResult, survivorsOf, hitIndices, takeDamageAt,
      touchAndCull, touchIndices, touchLoop, removeIndices, colA_eval,
      c6State, baseState, quietEnv, c6Enemy, spawn_enemy, difficulty_period])

theorem touchLoop_spec (hits : List ℕ) : ∀ lives : ℤ, 0 < lives →
    (touchLoop lives hits).1 = max (lives - hits.length) 0 ∧
    ((touchLoop lives hits).2.2 = true ↔ lives ≤ hits.length) := by
  induction hits with
  | nil =>
      intro lives hl
      simp only [touchLoop, List.length_nil]
      constructor
      · omega
      · simp
        omega
  | cons i rest ih =>
      intro lives hl
      simp only [touchLoop, List.length_cons]
      split_ifs with hc
      · constructor
        · push_cast
          omega
        · simp
          omega
      · have h2 := ih (lives - 1) (by omega)
        constructor
        · rw [h2.1]
          push_cast
          omega
        · rw [h2.2]
          push_cast
          omega

theorem touchAndCull_lives (g : GameState) (log : UpdateLog)
    (hl : 0 < g.lives) (hlog : log.gameOverShown = false) :
    (touchAndCull g log).1.lives =
      max (g.lives - (touchIndices g.player g.enemies).length) 0 ∧
    ((touchAndCull g log).2.gameOverShown = true ↔
      g.lives ≤ ((touchIndices g.player g.enemies).length : ℤ)) := by
  have hs := touchLoop_spec (touchIndices g.player g.enemies) g.lives hl
  simp only [touchAndCull]
  split_ifs with hgo
  · refine ⟨hs.1, ?_⟩
    simp only [show (true : Bool) = true from rfl]
    simp [hs.2.mp hgo]
  · refine ⟨hs.1, ?_⟩
    simp only [hlog]
    constructor
    · intro h
      exact absurd h (by simp)
    · intro hc
      exact absurd (hs.2.mpr hc) hgo

theorem combatPart_lives (g : GameState) (log : UpdateLog)
    (hl : 0 < g.lives) (hlog : log.gameOverShown = false)
    (hpk : (applyBulletCombat g).pickups.any
      (fun p => collide_with_shrunken_player (applyBulletCombat g).player p) = false) :
    (combatPart g log).1.lives =
      max (g.lives -
        (if (applyBulletCombat g).enemy_bullets.any
            (fun b => collide_with_shrunken_player b (applyBulletCombat g).player) = true
         then (1:ℤ) else 0) -
        ((touchIndices (applyBulletCombat g).player (applyBulletCombat g).enemies).length : ℤ)) 0 ∧
    ((combatPart g log).2.gameOverShown = true ↔
      g.lives ≤
        (if (applyBulletCombat g).enemy_bullets.any
            (fun b => collide_with_shrunken_player b (applyBulletCombat g).player) = true
         then (1:ℤ) else 0) +
        ((touchIndices (applyBulletCombat g).player (applyBulletCombat g).enemies).length : ℤ)) := by
  have hl1 : (applyBulletCombat g).lives = g.lives := rfl
  have hT : (0:ℤ) ≤ ((touchIndices (applyBulletCombat g).player
      (applyBulletCombat g).enemies).length : ℤ) := Int.ofNat_nonneg _
  simp only [combatPart]
  rw [if_neg (by simp [hpk])]
  by_cases hb : (applyBulletCombat g).enemy_bullets.any
      (fun b => collide_with_shrunken_player b (applyBulletCombat g).player) = true
  · rw [if_pos hb, if_pos hb]
    by_cases hd : (applyBulletCombat g).lives - 1 ≤ 0
    · rw [if_pos hd]
      constructor
      · simp only [hl1] at hd ⊢
        omega
      · simp only [hl1] at hd ⊢
        simp
        omega
    · rw [if_neg hd]
      have ht := touchAndCull_lives
        {applyBulletCombat g with
          enemy_bullets := (applyBulletCombat g).enemy_bullets.filter
            (fun b => ¬ collide_with_shrunken_player b (applyBulletCombat g).player),
          lives := (applyBulletCombat g).lives - 1} log (by simp; omega) hlog
      simp only at ht
      refine ⟨?_, ?_⟩
      · rw [ht.1]
        simp only [hl1]
      · rw [ht.2]
        simp only [hl1]
        omega
  · rw [if_neg hb, if_neg hb]
    have ht := touchAndCull_lives
      {applyBulletCombat g with
        enemy_bullets := (applyBulletCombat g).enemy_bullets.filter
          (fun b => ¬ collide_with_shrunken_player b (applyBulletCombat g).player)}
      log (by simp [hl1]; omega) hlog
    simp only at ht
    refine ⟨?_, ?_⟩
    · rw [ht.1]
      simp only [hl1]
      omega
    · rw [ht.2]
      simp only [hl1]
      omega

/-- C3 (amended): in a frame (without a victory pickup collection), lives
drop by 1 when AT LEAST ONE enemy bullet hits the shrunken player hitbox —
one point per frame, regardless of how many bullets hit — plus 1 for each
enemy touching the player (stopping at 0); and the game-over path is taken
on that same frame exactly when lives do not survive the total, i.e. from
lives = 1 any further player-damaging collision ends the game that frame. -/
theorem C3_player_damage (g : GameState) (env : Env) (hl : 0 < g.lives)
    (hpk : (applyBulletCombat (schedulePart g env).1).pickups.any
      (fun p => collide_with_shrunken_player
        (applyBulletCombat (schedulePart g env).1).player p) = false) :
    (update g env).1.lives =
      max (g.lives -
        (if (applyBulletCombat (schedulePart g env).1).enemy_bullets.any
            (fun b => collide_with_shrunken_player b
              (applyBulletCombat (schedulePart g env).1).player) = true
         then (1:ℤ) else 0) -
        ((touchIndices (applyBulletCombat (schedulePart g env).1).player
          (applyBulletCombat (schedulePart g env).1).enemies).length : ℤ)) 0 ∧
    ((update g env).2.gameOverShown = true ↔
      g.lives ≤
        (if (applyBulletCombat (schedulePart g env).1).enemy_bullets.any
            (fun b => collide_with_shrunken_player b
              (applyBulletCombat (schedulePart g env).1).player) = true
         then (1:ℤ) else 0) +
        ((touchIndices (applyBulletCombat (schedulePart g env).1).player
          (applyBulletCombat (schedulePart g env).1).enemies).length : ℤ)) := by
  have hl1 : 0 < (schedulePart g env).1.lives := by
    rw [schedulePart_lives]; exact hl
  have h := combatPart_lives (schedulePart g env).1 (schedulePart g env).2 hl1
    (schedulePart_gameOver_log g env) hpk
  rw [schedulePart_lives] at h
  exact h

/-- C3 counterexample: two enemy bullets overlap the shrunken player hitbox
in the same frame, yet lives drop from 3 to 2 (by one), not to 1 — refuting
"lives decrease by 1 for EACH enemy bullet colliding". -/
theorem C3_per_bullet_counterexample :
    (frame c3State quietEnv).1.lives = 2 ∧
    c3State.lives = 3 ∧
    c3State.enemy_bullets = [c3BulletA, c3BulletB] ∧
    collide_with_shrunken_player c3BulletA c3State.player = true ∧
    collide_with_shrunken_player c3BulletB c3State.player = true ∧
    c3State.enemies = [] := by
  refine ⟨?_, rfl, rfl, ?_, ?_, rfl⟩
  · norm_num [frame, update, schedulePart, combatPart, applyBulletCombat,
      bulletsEnemiesPhase, damageResult, survivorsOf, hitIndices, takeDamageAt,
      touchAndCull, touchIndices, touchLoop, removeIndices, colA_eval, colB_eval,
      c3State, baseState, quietEnv, spawn_enemy, difficulty_period]
  · exact colA_eval
  · exact colB_eval

/-- C3 witness: the amended per-frame damage formula evaluated at the C3
scenario (two bullets, no touching enemy, 3 lives). -/
theorem C3_player_damage_witness :
    (update c3State quietEnv).1.lives =
      max (c3State.lives -
        (if (applyBulletCombat (schedulePart c3State quietEnv).1).enemy_bullets.any
            (fun b => collide_with_shrunken_player b
              (applyBulletCombat (schedulePart c3State quietEnv).1).player) = true
         then (1:ℤ) else 0) -
        ((touchIndices (applyBulletCombat (schedulePart c3State quietEnv).1).player
          (applyBulletCombat (schedulePart c3State quietEnv).1).enemies).length : ℤ)) 0 :=
  (C3_player_damage c3State quietEnv (by norm_num [c3State, baseState])
    (by norm_num [schedulePart, applyBulletCombat, bulletsEnemiesPhase,
      damageResult, survivorsOf, hitIndices, takeDamageAt,
      c3State, baseState, quietEnv, spawn_enemy, difficulty_period])).1

theorem takeDamageAt_fst (enemies : List Enemy) (acc : List ℤ × ℤ × List Rect)
    (i : ℕ) : (takeDamageAt enemies acc i).1 = decOne enemies acc.1 i := by
  unfold takeDamageAt decOne
  cases h1 : acc.1[i]? with
  | none => cases h2 : enemies[i]? <;> simp [h1, h2]
  | some hpi =>
      cases h2 : enemies[i]? with
      | none => simp [h1, h2]
      | some e =>
          simp only [h1, h2]
          split_ifs <;> rfl

theorem foldl_damage_fst (enemies : List Enemy) (l : List ℕ) :
    ∀ acc : List ℤ × ℤ × List Rect,
    ((l.foldl (takeDamageAt enemies) acc).1) = l.foldl (decOne enemies) acc.1 := by
  induction l with
  | nil => intro acc; rfl
  | cons j rest ih =>
      intro acc
      simp only [List.foldl_cons]
      rw [ih, takeDamageAt_fst]

theorem foldl2_damage_fst (enemies : List Enemy) (ls : List (List ℕ)) :
    ∀ acc : List ℤ × ℤ × List Rect,
    ((ls.foldl (fun acc l => l.foldl (takeDamageAt enemies) acc) acc).1) =
      ls.foldl (fun hps l => l.foldl (decOne enemies) hps) acc.1 := by
  induction ls with
  | nil => intro acc; rfl
  | cons l rest ih =>
      intro acc
      simp only [List.foldl_cons]
      rw [ih, foldl_damage_fst]

theorem damageResult_fst (bullets : List Rect) (enemies : List Enemy) (score : ℤ) :
    (damageResult bullets enemies score).1 =
      ((bullets.map (hitIndices enemies)).flatten).foldl (decOne enemies)
        (enemies.map Enemy.hp) := by
  unfold damageResult
  rw [foldl2_damage_fst, List.foldl_flatten]

theorem foldl_decOne_getElem (enemies : List Enemy) (l : List ℕ) :
    ∀ hps : List ℤ, hps.length = enemies.length →
    (∀ j ∈ l, j < enemies.length) →
    ∀ i : ℕ, ((l.foldl (decOne enemies) hps)[i]?) =
      (hps[i]?).map (fun v => v - (l.count i : ℤ)) := by
  induction l with
  | nil =>
      intro hps _ _ i
      simp
  | cons j rest ih =>
      intro hps hlen hmem i
      have hj : j < enemies.length := hmem j (by simp)
      have hj' : j < hps.length := by omega
      have hjv : hps[j]? = some hps[j] := List.getElem?_eq_getElem hj'
      have hje : enemies[j]? = some enemies[j] := List.getElem?_eq_getElem hj
      have hdec : decOne enemies hps j = hps.set j (hps[j] - 1) := by
        unfold decOne
        rw [hjv, hje]
      simp only [List.foldl_cons, hdec]
      rw [ih (hps.set j (hps[j] - 1)) (by rw [List.length_set]; exact hlen)
        (fun x hx => hmem x (by simp [hx])) i]
      rw [List.getElem?_set]
      by_cases hij : j = i
      · subst hij
        rw [if_pos rfl, if_pos hj', hjv, List.count_cons]
        simp only [Option.map_some', beq_self_eq_true, if_true]
        congr 1
        push_cast
        ring
      · rw [if_neg hij, List.count_cons]
        have hbe : (j == i) = false := by simp [hij]
        rw [hbe]
        simp

theorem count_hitIndices (enemies : List Enemy) (b : Rect) (i : ℕ)
    (hi : i < enemies.length) :
    (hitIndices enemies b).count i =
      if Rect.colliderect b (enemies.get ⟨i, hi⟩).rect then 1 else 0 := by
  unfold hitIndices
  have hnd : ((List.range enemies.length).filter (fun i =>
      match enemies[i]? with
      | some e => Rect.colliderect b e.rect
      | none => false)).Nodup := (List.nodup_range _).filter _
  rw [List.count_eq_of_nodup hnd]
  have hie : enemies[i]? = some enemies[i] := List.getElem?_eq_getElem hi
  simp only [List.mem_filter, List.mem_range, hie]
  split_ifs with h1 h2 h3 <;> first | rfl | simp_all

theorem count_flatten_hits (enemies : List Enemy) (bullets : List Rect) (i : ℕ)
    (hi : i < enemies.length) :
    ((bullets.map (hitIndices enemies)).flatten).count i =
      bullets.countP (fun b => Rect.colliderect b (enemies.get ⟨i, hi⟩).rect) := by
  induction bullets with
  | nil => rfl
  | cons b bs ih =>
      simp only [List.map_cons, List.flatten_cons, List.count_append,
        List.countP_cons, ih, count_hitIndices enemies b i hi]
      split_ifs <;> omega

theorem hitIndices_eq_nil_iff (enemies : List Enemy) (b : Rect) :
    hitIndices enemies b = [] ↔
      enemies.any (fun e => Rect.colliderect b e.rect) = false := by
  unfold hitIndices
  rw [List.filter_eq_nil_iff]
  constructor
  · intro h
    rw [List.any_eq_false]
    intro e he
    obtain ⟨j, hjlt, hje⟩ := List.mem_iff_getElem.mp he
    have h2 := h j (List.mem_range.mpr hjlt)
    rw [List.getElem?_eq_getElem hjlt, hje] at h2
    simpa using h2
  · intro h j hjmem
    rw [List.mem_range] at hjmem
    rw [List.any_eq_false] at h
    rw [List.getElem?_eq_getElem hjmem]
    simpa using h enemies[j] (List.getElem_mem hjmem)

theorem damageResult_getElem (bullets : List Rect) (enemies : List Enemy)
    (score : ℤ) (i : ℕ) (hi : i < enemies.length) :
    (damageResult bullets enemies score).1[i]? =
      some ((enemies.get ⟨i, hi⟩).hp -
        (bullets.countP (fun b => Rect.colliderect b (enemies.get ⟨i, hi⟩).rect) : ℤ)) := by
  rw [damageResult_fst,
    foldl_decOne_getElem enemies _ (enemies.map Enemy.hp) (by simp) ?hmem i]
  case hmem =>
    intro j hj
    simp only [List.mem_flatten, List.mem_map] at hj
    obtain ⟨l, ⟨b, _, hbl⟩, hjl⟩ := hj
    subst hbl
    unfold hitIndices at hjl
    rw [List.mem_filter, List.mem_range] at hjl
    exact hjl.1
  rw [List.getElem?_map, List.getElem?_eq_getElem hi]
  simp only [Option.map_some']
  rw [count_flatten_hits enemies bullets i hi]
  rfl

theorem bulletsEnemiesPhase_bullets (bullets : List Rect) (enemies : List Enemy)
    (score : ℤ) :
    (bulletsEnemiesPhase bullets enemies score).1 =
      bullets.filter (fun b => ¬ enemies.any (fun e => Rect.colliderect b e.rect)) := by
  unfold bulletsEnemiesPhase
  apply List.filter_congr
  intro b _
  cases hany : enemies.any (fun e => Rect.colliderect b e.rect) <;>
    simp [hitIndices_eq_nil_iff, hany]

theorem foldl_decOne_length (enemies : List Enemy) (l : List ℕ) :
    ∀ hps : List ℤ, (l.foldl (decOne enemies) hps).length = hps.length := by
  induction l with
  | nil => intro hps; rfl
  | cons j rest ih =>
      intro hps
      simp only [List.foldl_cons]
      rw [ih]
      unfold decOne
      cases h1 : hps[j]? <;> cases h2 : enemies[j]? <;> simp [List.length_set]

theorem damageResult_length (bullets : List Rect) (enemies : List Enemy)
    (score : ℤ) :
    (damageResult bullets enemies score).1.length = enemies.length := by
  rw [damageResult_fst, foldl_decOne_length]
  simp

theorem survivorsOf_eq (f : Enemy → ℤ) : ∀ (enemies : List Enemy) (hps : List ℤ),
    hps.length = enemies.length →
    (∀ i : ℕ, ∀ hi : i < enemies.length, hps[i]? = some (f (enemies.get ⟨i, hi⟩))) →
    survivorsOf enemies hps =
      (enemies.map (fun e => ⟨e.kind, f e, e.rect⟩)).filter (fun e => 0 < e.hp) := by
  intro enemies
  induction enemies with
  | nil =>
      intro hps hlen _
      have h0 : hps = [] := List.length_eq_zero.mp (by simpa using hlen)
      subst h0
      rfl
  | cons e es ih =>
      intro hps hlen hval
      cases hps with
      | nil => simp at hlen
      | cons h hs =>
          have hh : h = f e := by
            have h0 := hval 0 (by simp)
            simpa using h0
          subst hh
          have hlen' : hs.length = es.length := by simpa using hlen
          have hval' : ∀ i : ℕ, ∀ hi : i < es.length,
              hs[i]? = some (f (es.get ⟨i, hi⟩)) := by
            intro i hi
            have h1 := hval (i + 1) (by simpa using Nat.succ_lt_succ hi)
            simpa using h1
          have hstep : survivorsOf (e :: es) (f e :: hs) =
              (if 0 < f e then [(⟨e.kind, f e, e.rect⟩ : Enemy)] else []) ++
                survivorsOf es hs := by
            unfold survivorsOf
            rw [show (e :: es).length = es.length + 1 from rfl,
              List.range_succ_eq_map, List.filterMap_cons, List.filterMap_map]
            simp only [Nat.succ_eq_add_one, Function.comp,
              List.getElem?_cons_succ, List.getElem?_cons_zero]
            by_cases hp : 0 < f e
            · simp only [if_pos hp]
              simp [hp]
              apply List.filterMap_congr
              intro x _
              simp [Function.comp, Nat.succ_eq_add_one, List.getElem?_cons_succ]
            · simp only [if_neg hp]
              simp [hp]
              apply List.filterMap_congr
              intro x _
              simp [Function.comp, Nat.succ_eq_add_one, List.getElem?_cons_succ]
          rw [hstep, ih hs hlen' hval']
          simp only [List.map_cons, List.filter_cons]
          by_cases hp : 0 < f e
          · simp [hp]
          · simp [hp]

theorem shrunk48A_eval :
    shrunkenRect (⟨220, 290, 48, 48⟩ : Rect) PLAYER_HITBOX_SHRINK_FACTOR =
      ⟨232, 302, 24, 24⟩ := by
  norm_num [shrunkenRect, PLAYER_HITBOX_SHRINK_FACTOR, pyInt, truncHalf,
    Rect.inflate]

theorem shrunk48B_eval :
    shrunkenRect (⟨225, 295, 48, 48⟩ : Rect) PLAYER_HITBOX_SHRINK_FACTOR =
      ⟨237, 307, 24, 24⟩ := by
  norm_num [shrunkenRect, PLAYER_HITBOX_SHRINK_FACTOR, pyInt, truncHalf,
    Rect.inflate]

theorem hitA_eval :
    Rect.colliderect (⟨230, 300, 8, 16⟩ : Rect) (⟨220, 290, 48, 48⟩ : Rect) =
      true := by decide

theorem hitB_eval :
    Rect.colliderect (⟨230, 300, 8, 16⟩ : Rect) (⟨225, 295, 48, 48⟩ : Rect) =
      true := by decide

theorem noTouchA_eval :
    collide_with_shrunken_player (⟨208, 700, 64, 64⟩ : Rect)
      (⟨220, 290, 48, 48⟩ : Rect) = false := by
  unfold collide_with_shrunken_player collideShrunkF
  rw [shrunk48A_eval]
  decide

theorem noTouchB_eval :
    collide_with_shrunken_player (⟨208, 700, 64, 64⟩ : Rect)
      (⟨225, 295, 48, 48⟩ : Rect) = false := by
  unfold collide_with_shrunken_player collideShrunkF
  rw [shrunk48B_eval]
  decide

/-- C2 (amended): in every frame, the bullet-combat step of `Game.update`
(`applyBulletCombat`, the state transformer applied between scheduling and
the pickup check) consumes exactly the player bullets that overlap at least
one enemy, and replaces the enemy group by: every enemy with its hp
decremented by 1 for EACH overlapping bullet, dead enemies removed — in
particular a single bullet whose rectangle overlaps several enemies damages
all of them in the same frame, not at most one. -/
theorem C2_combat_resolution (g : GameState) (i : ℕ)
    (hi : i < g.enemies.length) :
    (damageResult g.bullets g.enemies g.score).1[i]? =
      some ((g.enemies.get ⟨i, hi⟩).hp -
        (g.bullets.countP
          (fun b => Rect.colliderect b (g.enemies.get ⟨i, hi⟩).rect) : ℤ)) ∧
    (applyBulletCombat g).bullets =
      g.bullets.filter
        (fun b => ¬ g.enemies.any (fun e => Rect.colliderect b e.rect)) ∧
    (applyBulletCombat g).enemies =
      (g.enemies.map (fun e =>
        ⟨e.kind,
         e.hp - (g.bullets.countP (fun b => Rect.colliderect b e.rect) : ℤ),
         e.rect⟩)).filter (fun e => 0 < e.hp) := by
  refine ⟨damageResult_getElem g.bullets g.enemies g.score i hi, ?_, ?_⟩
  · exact bulletsEnemiesPhase_bullets g.bullets g.enemies g.score
  · exact survivorsOf_eq
      (fun e => e.hp - (g.bullets.countP (fun b => Rect.colliderect b e.rect) : ℤ))
      g.enemies (damageResult g.bullets g.enemies g.score).1
      (damageResult_length g.bullets g.enemies g.score)
      (fun j hj => damageResult_getElem g.bullets g.enemies g.score j hj)

/-- C2 witness: the per-frame characterization evaluated at the concrete
two-enemy scenario state (enemy 0 takes exactly 1 damage from the single
bullet, which is consumed; both enemies survive with 1 hp). -/
theorem C2_combat_resolution_witness :
    (damageResult c2State.bullets c2State.enemies c2State.score).1[0]? =
      some ((c2State.enemies.get ⟨0, by decide⟩).hp -
        (c2State.bullets.countP
          (fun b => Rect.colliderect b (c2State.enemies.get ⟨0, by decide⟩).rect) : ℤ)) ∧
    (applyBulletCombat c2State).bullets =
      c2State.bullets.filter
        (fun b => ¬ c2State.enemies.any (fun e => Rect.colliderect b e.rect)) ∧
    (applyBulletCombat c2State).enemies =
      (c2State.enemies.map (fun e =>
        ⟨e.kind,
         e.hp - (c2State.bullets.countP (fun b => Rect.colliderect b e.rect) : ℤ),
         e.rect⟩)).filter (fun e => 0 < e.hp) :=
  C2_combat_resolution c2State 0 (by decide)

/-- C2 counterexample: in a frame holding a single player bullet whose
rectangle overlaps two basic enemies (2 hp each), the frame decrements BOTH
enemies' hp (2 → 1 for each) while consuming the one bullet — refuting "at
most one enemy has its hp decremented by that bullet, even when the
bullet's rectangle overlaps several enemies in the same frame". -/
theorem C2_multi_hit_counterexample :
    ((frame c2State quietEnv).1.enemies.map Enemy.hp = [1, 1]) ∧
    (frame c2State quietEnv).1.bullets = [] ∧
    c2State.bullets = [c2Bullet] ∧
    c2State.enemies.map Enemy.hp = [2, 2] ∧
    Rect.colliderect c2Bullet c2EnemyA.rect = true ∧
    Rect.colliderect c2Bullet c2EnemyB.rect = true ∧
    ((bulletsEnemiesPhase [c2Bullet] [c2EnemyA, c2EnemyB] 0).2.1.map Enemy.hp
      = [1, 1]) := by
  refine ⟨?_, ?_, rfl, by decide, by decide, by decide, by decide⟩ <;>
    (norm_num [frame, update, schedulePart, combatPart, applyBulletCombat,
      bulletsEnemiesPhase, damageResult, survivorsOf, hitIndices, takeDamageAt,
      touchAndCull, touchIndices, touchLoop, removeIndices, decOne,
      hitA_eval, hitB_eval, noTouchA_eval, noTouchB_eval,
      c2State, baseState, quietEnv, c2Bullet, c2EnemyA, c2EnemyB,
      spawn_enemy, difficulty_period, List.range_succ, List.range_zero,
      List.filterMap_cons, List.filterMap_nil, List.filter_cons,
      List.filter_nil, List.foldl_cons, List.foldl_nil,
      SCREEN_WIDTH, SCREEN_HEIGHT] <;> decide)

end AlendaDeObst
